import Mathlib

/-!
Verification development for the JobFinder single-user core.

The Python source files database.py, utils.py and evaluate.py are embedded
shallowly: SQLite tables become lists of rows, each store operation becomes a
pure function on an explicit database state, the scan controller becomes a
transition system whose transitions are atomic (the source guards start and
stop with a single threading.Lock), and the regular expression used for
job-id extraction becomes an explicit backtracking matcher with the same
search semantics (leftmost start position, greedy optional slug group).
-/

namespace JobFinder

/-- Single-user owner id, database.py line 15. -/
def ADMIN_USER_ID : Nat := 1

/-- One row of the discovered_jobs table (database.py, create_single_user_tables,
lines 73-88). rid models the AUTOINCREMENT primary key id. -/
structure DRow where
  rid : Nat
  user_id : Nat
  job_id : Nat
  url : String
  location : String
  keyword : String
  title : Option String
  description : Option String
  analyzed : Bool
deriving DecidableEq, Repr

/-- One row of the approved_jobs table (database.py, lines 90-103).
date_applied models the nullable TIMESTAMP column; timestamps are Nat. -/
structure ARow where
  rid : Nat
  user_id : Nat
  discovered_job_id : Nat
  reason : String
  date_applied : Option Nat
  is_archived : Bool
deriving DecidableEq, Repr

/-- The database state: the two job tables in insertion order, the autoincrement
counters, and the singleton user_scan_control row for the admin user as an
optional pair (stop_scan_flag, scan_active) (database.py, lines 117-125).
Both flag columns carry DEFAULT FALSE in the schema. -/
structure DB where
  discovered : List DRow
  approved : List ARow
  nextDid : Nat
  nextAid : Nat
  scanControl : Option (Bool × Bool)
deriving DecidableEq, Repr

/-- The UNIQUE(user_id, job_id) key test used by INSERT OR IGNORE and by the
SELECT in approve_job. -/
def dKey (jid : Nat) (r : DRow) : Bool :=
  r.user_id == ADMIN_USER_ID && r.job_id == jid

/-- The UNIQUE(user_id, discovered_job_id) key test of approved_jobs. -/
def aKey (did : Nat) (a : ARow) : Bool :=
  a.user_id == ADMIN_USER_ID && a.discovered_job_id == did

/-- insert_stub (database.py, lines 140-152): INSERT OR IGNORE into
discovered_jobs under UNIQUE(user_id, job_id); returns rowcount > 0. -/
def insert_stub (jid : Nat) (url loc kw : String) (db : DB) : Bool × DB :=
  if db.discovered.any (dKey jid) then
    (false, db)
  else
    (true,
     { db with
        discovered := db.discovered ++
          [⟨db.nextDid, ADMIN_USER_ID, jid, url, loc, kw, none, none, false⟩]
        nextDid := db.nextDid + 1 })

/-- The INSERT OR IGNORE statement of approve_job (database.py, lines 195-198),
keyed on UNIQUE(user_id, discovered_job_id). -/
def approveInsert (did : Nat) (reason : String) (db : DB) : DB :=
  if db.approved.any (aKey did) then db
  else
    { db with
       approved := db.approved ++
         [⟨db.nextAid, ADMIN_USER_ID, did, reason, none, false⟩]
       nextAid := db.nextAid + 1 }

/-- approve_job (database.py, lines 181-203): fetch the first discovered row for
(owner, job_id); if absent return false; otherwise insert-or-ignore the
approval and return true. -/
def approve_job (jid : Nat) (reason : String) (db : DB) : Bool × DB :=
  match db.discovered.find? (dKey jid) with
  | none => (false, db)
  | some d => (true, approveInsert d.rid reason db)

/-- Row test of the UPDATE in mark_job_as_applied: user matches, primary key
matches and date_applied IS NULL. -/
def appliedHit (pk : Nat) (a : ARow) : Bool :=
  a.user_id == ADMIN_USER_ID && a.rid == pk && a.date_applied.isNone

/-- mark_job_as_applied (database.py, lines 206-219): UPDATE ... SET
date_applied = CURRENT_TIMESTAMP WHERE user_id = ? AND id = ? AND date_applied
IS NULL; returns rowcount > 0. The current timestamp is the parameter now. -/
def mark_job_as_applied (pk now : Nat) (db : DB) : Bool × DB :=
  (db.approved.any (appliedHit pk),
   { db with
      approved := db.approved.map fun a =>
        if appliedHit pk a then { a with date_applied := some now } else a })

/-- First statement of clear_all_discovered_jobs (database.py, line 247):
DELETE FROM approved_jobs WHERE user_id = ?. -/
def del_approved_for_user (db : DB) : DB :=
  { db with approved := db.approved.filter fun a => !(a.user_id == ADMIN_USER_ID) }

/-- Second statement of clear_all_discovered_jobs (database.py, line 249):
DELETE FROM discovered_jobs WHERE user_id = ?, returning its rowcount. -/
def del_discovered_for_user (db : DB) : Nat × DB :=
  (db.discovered.countP (fun r => r.user_id == ADMIN_USER_ID),
   { db with discovered := db.discovered.filter fun r => !(r.user_id == ADMIN_USER_ID) })

/-- clear_all_discovered_jobs (database.py, lines 242-253), success path: the
approved-jobs delete runs first, then the discovered-jobs delete, whose
rowcount is returned. -/
def clear_all_discovered_jobs (db : DB) : Nat × DB :=
  del_discovered_for_user (del_approved_for_user db)

/-- set_stop_scan_flag (database.py, lines 270-277): INSERT OR REPLACE INTO
user_scan_control (user_id, stop_scan_flag) VALUES (?, ?). The REPLACE deletes
any row conflicting on UNIQUE(user_id) and inserts a fresh row in which the
unmentioned scan_active column takes its schema default FALSE. -/
def set_stop_scan_flag (v : Bool) (db : DB) : DB :=
  { db with scanControl := some (v, false) }

/-- set_scan_active (database.py, lines 288-295): INSERT OR REPLACE INTO
user_scan_control (user_id, scan_active) VALUES (?, ?); the unmentioned
stop_scan_flag column takes its schema default FALSE. -/
def set_scan_active (v : Bool) (db : DB) : DB :=
  { db with scanControl := some (false, v) }

/-- should_stop_scan (database.py, lines 280-285): read the persisted stop flag,
false when no row exists. -/
def should_stop_scan (db : DB) : Bool :=
  match db.scanControl with
  | some p => p.1
  | none => false

/-- is_scan_active (database.py, lines 298-303): read the persisted activity
flag, false when no row exists. -/
def is_scan_active (db : DB) : Bool :=
  match db.scanControl with
  | some p => p.2
  | none => false

/-- Referential integrity of the approved_jobs foreign key into
discovered_jobs(id). -/
def RefOk (db : DB) : Prop :=
  ∀ a ∈ db.approved, ∃ r ∈ db.discovered, r.rid = a.discovered_job_id

/-- Empty database, used by concrete witnesses. -/
def db0 : DB := ⟨[], [], 1, 1, none⟩

/-! Scan controller (utils.py). The module state consists of the global
_scan_thread handle, the _scan_stop_signal cell, and the database; every
operation below runs its whole body while holding _scan_lock (utils.py lines
20, 24, 34, 70), so each is modelled as one atomic transition. liveTasks
counts live scan worker threads, so that the single-flight property is a
statement rather than a builtin of the model. -/
structure Sys where
  liveTasks : Nat
  stopSignal : Bool
  db : DB
deriving DecidableEq, Repr

/-- get_scan_status (utils.py, lines 22-28): the in-memory, liveness-based
status pair (is_running, stop_requested). -/
def get_scan_status (s : Sys) : Bool × Bool :=
  (decide (0 < s.liveTasks), s.stopSignal)

/-- start_scan (utils.py, lines 30-64). The live check comes first; then the
in-memory stop signal is cleared; the try block imports the scraper, runs
init_db (a no-op on a state whose tables exist) and resets the persisted stop
flag, then spawns the worker thread. initFail carries the exception text when
the try body raises before the thread is spawned; none is the success path. -/
def start_scan (initFail : Option String) (s : Sys) : (Bool × String) × Sys :=
  if 0 < s.liveTasks then
    ((false, "Scan is already running"), s)
  else
    let s1 := { s with stopSignal := false }
    match initFail with
    | some e => ((false, "Failed to start scan: " ++ e), s1)
    | none =>
      ((true, "Scan started successfully"),
       { s1 with db := set_stop_scan_flag false s1.db, liveTasks := s1.liveTasks + 1 })

/-- stop_scan (utils.py, lines 66-81). The live check comes first; then the
in-memory stop signal is set; the try block persists the stop flag. dbFail
carries the exception text when that database write raises. -/
def stop_scan (dbFail : Option String) (s : Sys) : (Bool × String) × Sys :=
  if 0 < s.liveTasks then
    let s1 := { s with stopSignal := true }
    match dbFail with
    | some e => ((false, "Failed to send stop signal: " ++ e), s1)
    | none => ((true, "Stop signal sent"), { s1 with db := set_stop_scan_flag true s1.db })
  else
    ((false, "No scan is currently running"), s)

/-- scan_worker exit (utils.py, lines 48-59): body abstracts whatever
scrape_phase did to the database, whether it returned or raised (the except
clause swallows the exception either way); the finally clause then clears the
in-memory stop signal and the persisted stop flag, and the thread dies. -/
def scan_worker_exit (body : DB → DB) (s : Sys) : Sys :=
  { liveTasks := s.liveTasks - 1
    stopSignal := false
    db := set_stop_scan_flag false (body s.db) }

/-! Failure-aware model of get_conn (database.py, lines 18-30). A connection
holds the on-disk state and the in-transaction pending state; statements edit
pending; get_conn commits pending on success and discards it on any failure
(conn.rollback), re-raising the exception. Each statement that the failure
analysis varies is guarded by an Option String: some e means the statement
raises with message e. -/
structure Conn where
  disk : DB
  pending : DB

/-- get_conn as a combinator: run the body in a fresh transaction; on success
commit the pending state, on failure the disk keeps the original state and the
exception propagates. -/
def get_conn_run (body : Conn → Except String (α × Conn)) (db : DB) :
    Except String (α × DB) :=
  match body ⟨db, db⟩ with
  | Except.ok (a, c) => Except.ok (a, c.pending)
  | Except.error e => Except.error e

/-- insert_stub with its try/except (database.py, lines 146-152): a failure of
the INSERT statement is caught, printed, and reported as the ordinary value
false, leaving the rolled-back database. -/
def insert_stub_x (f1 : Option String) (jid : Nat) (url loc kw : String)
    (db : DB) : Bool × DB :=
  match get_conn_run (fun c =>
    match f1 with
    | some e => Except.error e
    | none =>
      let p := insert_stub jid url loc kw c.pending
      Except.ok (p.1, { c with pending := p.2 })) db with
  | Except.ok (b, db2) => (b, db2)
  | Except.error _ => (false, db)

/-- approve_job with its try/except (database.py, lines 181-203): f1 guards the
SELECT and f2 the INSERT OR IGNORE; any failure is caught and reported as the
ordinary value false on the rolled-back database. -/
def approve_job_x (f1 f2 : Option String) (jid : Nat) (reason : String)
    (db : DB) : Bool × DB :=
  match get_conn_run (fun c =>
    match f1 with
    | some e => Except.error e
    | none =>
      match c.pending.discovered.find? (dKey jid) with
      | none => Except.ok (false, c)
      | some d =>
        match f2 with
        | some e => Except.error e
        | none => Except.ok (true, { c with pending := approveInsert d.rid reason c.pending })) db with
  | Except.ok (b, db2) => (b, db2)
  | Except.error _ => (false, db)

/-- clear_all_discovered_jobs with its try/except (database.py, lines 242-253):
f1 guards the approved-jobs DELETE and f2 the discovered-jobs DELETE; any
failure is caught and reported as the ordinary count 0 on the rolled-back
database, even when the first DELETE had already run inside the transaction. -/
def clear_all_discovered_jobs_x (f1 f2 : Option String) (db : DB) : Nat × DB :=
  match get_conn_run (fun c =>
    match f1 with
    | some e => Except.error e
    | none =>
      let c1 : Conn := { c with pending := del_approved_for_user c.pending }
      match f2 with
      | some e => Except.error e
      | none =>
        let p := del_discovered_for_user c1.pending
        Except.ok (p.1, { c1 with pending := p.2 })) db with
  | Except.ok (n, db2) => (n, db2)
  | Except.error _ => (0, db)

/-- The UPDATE of update_details (database.py, lines 163-171). -/
def update_details_stmt (jid : Nat) (t d : Option String) (db : DB) : DB :=
  { db with
     discovered := db.discovered.map fun r =>
       if dKey jid r then { r with title := t, description := d } else r }

/-- update_details (database.py, lines 163-171) has no try/except: a statement
failure rolls back and propagates to the caller as the raised exception. -/
def update_details_x (f1 : Option String) (jid : Nat) (t d : Option String)
    (db : DB) : Except String Unit × DB :=
  match get_conn_run (fun c =>
    match f1 with
    | some e => Except.error e
    | none => Except.ok ((), { c with pending := update_details_stmt jid t d c.pending })) db with
  | Except.ok (_, db2) => (Except.ok (), db2)
  | Except.error e => (Except.error e, db)

/-! Evaluator (evaluate.py). The user configuration is flattened: ai_provider
is general.ai_provider, the two keys are api_keys.openai_api_key and
api_keys.google_api_key, evaluation_prompt is prompts.evaluation_prompt and
resume_text is resume.text; a missing section or field is none. -/
structure UserConfig where
  ai_provider : Option String
  openai_api_key : Option String
  google_api_key : Option String
  evaluation_prompt : Option String
  resume_text : Option String
deriving DecidableEq, Repr

/-- The character replacements of sanitize_text (evaluate.py, lines 38-46). -/
def smartSub (c : Char) : Char :=
  if c = '\u2011' then '-'
  else if c = '\u2013' then '-'
  else if c = '\u2014' then '-'
  else if c = '\u2018' then '\x27'
  else if c = '\u2019' then '\x27'
  else if c = '\u201c' then '\x22'
  else if c = '\u201d' then '\x22'
  else c

/-- sanitize_text (evaluate.py, lines 32-53): replace the listed punctuation,
then drop every remaining code point outside ASCII. -/
def sanitize_text (s : String) : String :=
  String.mk ((s.data.map smartSub).filter fun c => c.toNat < 128)

/-- Python string truthiness for optional text: None and the empty string are
falsy. -/
def truthy : Option String → Option String
  | none => none
  | some s => if s = "" then none else some s

/-- prompt_eligibility (evaluate.py, lines 55-86): fixed preamble, optional
criteria block, job description, optional resume block, fixed JSON footer. -/
def prompt_eligibility (job_description : String) (cfg : UserConfig)
    (resume : Option String) : String :=
  let base :=
    "You are an AI recruiter assistant.\n" ++
    "You are a helpful assistant that evaluates job postings with a realistic understanding of hiring practices. " ++
    "Remember that many job \x27requirements\x27 are actually preferences, and hiring managers often consider candidates who meet 70-80% of listed requirements. " ++
    "Analyse the following LinkedIn job description and determine whether the " ++
    "candidate is eligible for the role." ++
    "Assume the candidate is eligible via US citizenship or residency requirements."
  let base :=
    match cfg.evaluation_prompt with
    | some ep => base ++ "\n\nEvaluation Criteria:\n" ++ ep
    | none => base
  let resume1 :=
    match truthy resume with
    | some r => some r
    | none => cfg.resume_text
  let base :=
    match truthy resume1 with
    | some r =>
      base ++ "\n\nJob Description:\n" ++ sanitize_text job_description.trim ++
        "\n\nCandidate Resume:\n" ++ sanitize_text r.trim
    | none => base ++ "\n\nJob Description:\n" ++ sanitize_text job_description.trim
  base ++
    "\n\nRespond using ONLY valid JSON with the following schema:\n" ++
    "\x7b\n  \"eligible\": bool,\n  \"reasoning\": str,\n  \"missing_requirements\": [str]\n\x7d"

/-- The absent-or-placeholder key test: Python evaluates
(not key or key == placeholder), where None and the empty string are falsy. -/
def keyUnset (key : Option String) (placeholder : String) : Bool :=
  match key with
  | none => true
  | some k => k == "" || k == placeholder

/-- Outcome of one evaluation attempt: either a raised ValueError carrying a
configuration message, or the first provider or network interaction (client
construction and remote call) with the credentials and prompt it would use.
Producing configError means control never reached a provider call. -/
inductive EvalOutcome where
  | configError (msg : String)
  | network (provider : String) (apiKey : String) (prompt : String)
deriving DecidableEq, Repr

/-- call_openai (evaluate.py, lines 88-100): sanitizes the prompt once more,
builds the client with the key, and performs the remote call. -/
def call_openai (prompt apiKey : String) : EvalOutcome :=
  EvalOutcome.network "openai" apiKey (sanitize_text prompt)

/-- call_gemini (evaluate.py, lines 102-121): checks the Google key against
absence and its placeholder before configuring the client or touching the
network; on success, configures and performs the remote call. -/
def call_gemini (prompt : String) (cfg : UserConfig) : EvalOutcome :=
  if keyUnset cfg.google_api_key "YOUR_GOOGLE_API_KEY_HERE" then
    EvalOutcome.configError "Google API Key not configured for user or is a placeholder."
  else
    EvalOutcome.network "gemini" (cfg.google_api_key.getD "") prompt

/-- Python str.lower as used on the provider name; the names in play are
ASCII, so mapping the ASCII lower-case function over the characters models the
call. -/
def strLower (s : String) : String :=
  String.mk (s.data.map Char.toLower)

/-- analyze_job (evaluate.py, lines 124-148): builds the prompt, lower-cases
the configured provider name (default "openai"), and dispatches; each provider
branch validates its key before any network interaction, and an unrecognized
provider raises a ValueError whose message names the offending value. -/
def analyze_job (job_description : String) (user_id : Nat)
    (resume : Option String) (cfg : UserConfig) : EvalOutcome :=
  let prompt := prompt_eligibility job_description cfg resume
  let provider := strLower (cfg.ai_provider.getD "openai")
  if provider = "openai" then
    if keyUnset cfg.openai_api_key "YOUR_OPENAI_API_KEY_HERE" then
      EvalOutcome.configError
        ("OpenAI API Key not configured for user " ++ toString user_id ++ " or is a placeholder.")
    else
      call_openai prompt (cfg.openai_api_key.getD "")
  else if provider = "gemini" then
    call_gemini prompt cfg
  else
    EvalOutcome.configError
      ("Invalid AI provider configured for user " ++ toString user_id ++ ": \x27" ++
       provider ++ "\x27. Must be \x27openai\x27 or \x27gemini\x27.")

/-! Job-id extraction (database.py, lines 12 and 349-352). The compiled
pattern is /jobs/view/(?:[^/?]*-)?(\d+)(?:[/?]|$) used through re.search on a
str pattern, so \d matches any Unicode decimal digit (category Nd) and the
dollar anchor matches at the end of the string or just before a single
trailing newline. The embedding reproduces the search and backtracking order
of the engine: start positions are tried left to right; at a start position
the literal must match; the optional slug group is tried greedily, preferring
the slug whose closing dash lies furthest right; the digit run is maximal.
The matcher is parametrized by the digit test, the digit value and the
trailing-context test and instantiated twice: with the engine semantics (the
program) and with the narrower reading the specification words state (ASCII
digits, hard end of string), the latter used to decide the stated pattern on
concrete inputs. -/

/-- Greedy digit scan: the maximal leading run of digit characters and the
remainder. -/
def takeDigitsG (dig : Char → Bool) : List Char → List Char × List Char
  | [] => ([], [])
  | c :: cs =>
    if dig c then
      let p := takeDigitsG dig cs
      (c :: p.1, p.2)
    else ([], c :: cs)

/-- Decimal value of a digit run, as int(...) of the captured group. -/
def natOfDigitsG (dval : Char → Nat) (ds : List Char) : Nat :=
  ds.foldl (fun n c => 10 * n + dval c) 0

/-- Match (digits)(trailing context) at the head of the input: a nonempty
maximal digit run whose follower passes the trailing-context test. Shortening
the greedy run can never repair a failed follower test, because the follower
would then be a digit, so no backtracking inside the digit run is needed. -/
def digitsMatchG (dig : Char → Bool) (dval : Char → Nat) (tOk : List Char → Bool)
    (s : List Char) : Option Nat :=
  let p := takeDigitsG dig s
  if !p.1.isEmpty && tOk p.2 then some (natOfDigitsG dval p.1) else none

/-- Match (?:[^/?]*-)(digits)(trailing context) at the head of the input with
the slug group present, preferring the rightmost closing dash as the greedy
engine does: the recursive call, which places the dash deeper, is tried
first. -/
def matchSluggedG (dig : Char → Bool) (dval : Char → Nat) (tOk : List Char → Bool) :
    List Char → Option Nat
  | [] => none
  | c :: cs =>
    if c = '/' || c = '?' then none
    else
      match matchSluggedG dig dval tOk cs with
      | some n => some n
      | none => if c = '-' then digitsMatchG dig dval tOk cs else none

/-- Match the part of the pattern after the literal: the optional group is
tried with the slug present first, then absent. -/
def matchAfterLitG (dig : Char → Bool) (dval : Char → Nat) (tOk : List Char → Bool)
    (s : List Char) : Option Nat :=
  match matchSluggedG dig dval tOk s with
  | some n => some n
  | none => digitsMatchG dig dval tOk s

/-- The literal segment of the pattern. -/
def litP : List Char := ['/', 'j', 'o', 'b', 's', '/', 'v', 'i', 'e', 'w', '/']

/-- Whether the first list heads the second. -/
def startsWithL : List Char → List Char → Bool
  | [], _ => true
  | _ :: _, [] => false
  | p :: ps, c :: cs => p == c && startsWithL ps cs

/-- re.search over start positions, left to right: at each position the whole
pattern must match, so the literal must head the remainder and the tail must
match; otherwise the next start position is tried. -/
def searchAuxG (dig : Char → Bool) (dval : Char → Nat) (tOk : List Char → Bool) :
    List Char → Option Nat
  | [] => none
  | c :: cs =>
    if startsWithL litP (c :: cs) then
      match matchAfterLitG dig dval tOk ((c :: cs).drop litP.length) with
      | some n => some n
      | none => searchAuxG dig dval tOk cs
    else searchAuxG dig dval tOk cs

/-- First code points of the blocks of Unicode decimal digits (category Nd,
Unicode 14 as shipped with the CPython running the source); every block is a
contiguous run of ten code points valued 0 through 9. -/
def ndStarts : List Nat :=
  [48, 1632, 1776, 1984, 2406, 2534, 2662, 2790, 2918, 3046,
   3174, 3302, 3430, 3558, 3664, 3792, 3872, 4160, 4240, 6112,
   6160, 6470, 6608, 6784, 6800, 6992, 7088, 7232, 7248, 42528,
   43216, 43264, 43472, 43504, 43600, 44016, 65296, 66720, 68912, 69734,
   69872, 69942, 70096, 70384, 70736, 70864, 71248, 71360, 71472, 71904,
   72016, 72784, 73040, 73120, 92768, 92864, 93008, 120782, 120792, 120802,
   120812, 120822, 123200, 123632, 125264, 130032]

/-- The digit test of the str pattern without re.ASCII: any Unicode decimal
digit. -/
def isPyDigit (c : Char) : Bool :=
  ndStarts.any fun b => b ≤ c.toNat && c.toNat ≤ b + 9

/-- Decimal value of a Unicode digit, as int() computes it: the offset inside
its block. -/
def pyDigitVal (c : Char) : Nat :=
  match ndStarts.find? (fun b => b ≤ c.toNat && c.toNat ≤ b + 9) with
  | some b => c.toNat - b
  | none => 0

/-- The trailing context (?:[/?]|$): one slash or question mark, or the dollar
anchor, which without MULTILINE matches at the end of the string and just
before a single trailing newline. -/
def termOk : List Char → Bool
  | [] => true
  | [c] => c = '/' || c = '?' || c = '\n'
  | c :: _ => c = '/' || c = '?'

/-- extract_job_id_from_url (database.py, lines 349-352): search the URL for
the pattern and return the captured digits as an integer, none otherwise. The
function is total, so no input can raise; int() on a run of Unicode decimal
digits cannot raise either. -/
def extract_job_id_from_url (url : String) : Option Nat :=
  searchAuxG isPyDigit pyDigitVal termOk url.data

/-- ASCII digit value, the specification reading of the captured group. -/
def asciiVal (c : Char) : Nat := c.toNat - 48

/-- Trailing context as the specification words it: a slash, a question mark,
or the hard end of the string. Modelled from the claim, for comparison. -/
def termOkSpec : List Char → Bool
  | [] => true
  | c :: _ => c = '/' || c = '?'

/-- The matcher under the specification reading (ASCII digits, hard end of
string), used to decide the stated pattern on concrete URLs. -/
def searchSpec (s : List Char) : Option Nat :=
  searchAuxG (fun c => c.isDigit) asciiVal termOkSpec s

/-- Declarative optional slug: absent, or any dash-closed run free of slashes
and question marks. -/
def SlugOk (mid : List Char) : Prop :=
  mid = [] ∨ ∃ slug, mid = slug ++ ['-'] ∧ ∀ c ∈ slug, ¬(c = '/' ∨ c = '?')

/-- The tail of the pattern matches at the head of the input: an optional
slug, then a nonempty digit run valued n, then trailing context; generic in
the digit test, the digit value and the trailing-context predicate. -/
def AfterLitMatchG (dig : Char → Bool) (dval : Char → Nat) (tP : List Char → Prop)
    (s : List Char) (n : Nat) : Prop :=
  ∃ mid ds post,
    s = mid ++ ds ++ post ∧ SlugOk mid ∧
    (ds ≠ [] ∧ ∀ c ∈ ds, dig c = true) ∧ tP post ∧ natOfDigitsG dval ds = n

/-- The input decomposes somewhere into prefix, literal, optional slug, digits
valued n, and trailing context; generic as above. -/
def MatchedAsG (dig : Char → Bool) (dval : Char → Nat) (tP : List Char → Prop)
    (s : List Char) (n : Nat) : Prop :=
  ∃ pre mid ds post,
    s = pre ++ litP ++ mid ++ ds ++ post ∧ SlugOk mid ∧
    (ds ≠ [] ∧ ∀ c ∈ ds, dig c = true) ∧ tP post ∧ natOfDigitsG dval ds = n

/-- Trailing context as the specification states it: a slash, a question mark,
or the end of the string. Stated from the words of the specification. -/
def TermP (post : List Char) : Prop :=
  post = [] ∨ ∃ c cs, post = c :: cs ∧ (c = '/' ∨ c = '?')

/-- Trailing context as the engine implements it: additionally the position
just before a single trailing newline. -/
def TermPy (post : List Char) : Prop :=
  post = [] ∨ post = ['\n'] ∨ ∃ c cs, post = c :: cs ∧ (c = '/' ∨ c = '?')

/-- One match of the pattern as the specification words it: ASCII digits and
hard end of string. Stated from the words of the specification. -/
def MatchedAs (s : List Char) (n : Nat) : Prop :=
  MatchedAsG (fun c => c.isDigit) asciiVal TermP s n

/-- The URL matches the pattern as the specification words it. -/
def IsJobIdMatch (s : List Char) : Prop :=
  ∃ n, MatchedAs s n

/-- One match of the pattern under the engine semantics: Unicode decimal
digits valued by int(), dollar-anchor trailing context. -/
def MatchedPy (s : List Char) (n : Nat) : Prop :=
  MatchedAsG isPyDigit pyDigitVal TermPy s n

/-- The URL matches the pattern under the engine semantics. -/
def IsJobIdMatchPy (s : List Char) : Prop :=
  ∃ n, MatchedPy s n

/-- A concrete discovered row, used by counterexamples and witnesses. -/
def row7 : DRow := ⟨1, ADMIN_USER_ID, 7, "u", "l", "k", none, none, false⟩

/-- A database already holding the stub with external id 7. -/
def dbDup : DB := ⟨[row7], [], 2, 1, none⟩

/-- A configuration with a mixed-case provider name and no OpenAI key. -/
def cfgBad : UserConfig := ⟨some "OpenAI", none, some "g", none, none⟩

/-- An idle controller state over the empty database. -/
def sysIdle : Sys := ⟨0, false, db0⟩

/-- A controller state with one live scan task. -/
def sysLive : Sys := ⟨1, false, db0⟩

/-- A database whose single approved job already carries an application
timestamp. -/
def dbApp : DB := ⟨[row7], [⟨1, ADMIN_USER_ID, 1, "ok", some 5, false⟩], 2, 2, none⟩

/-! Theorems. Helper lemmas come first, the claim theorems and their witnesses
afterwards. -/

theorem approveInsert_of_any {did : Nat} {reason : String} {db : DB}
    (h : db.approved.any (aKey did) = true) :
    approveInsert did reason db = db := by
  simp [approveInsert, h]

theorem anyKey_eq_false {l : List DRow} {jid : Nat}
    (h : ∀ r ∈ l, ¬(r.user_id = ADMIN_USER_ID ∧ r.job_id = jid)) :
    l.any (dKey jid) = false := by
  rw [List.any_eq_false]
  intro r hr
  simpa [dKey] using h r hr

theorem map_id_of_all {α : Type} (l : List α) (f : α → α) (h : ∀ a ∈ l, f a = a) :
    l.map f = l := by
  induction l with
  | nil => rfl
  | cons a t ih =>
    simp only [List.map_cons, h a (by simp)]
    rw [ih fun x hx => h x (by simp [hx])]

/-- C10: each persisted flag writer rewrites the whole singleton
user_scan_control row via INSERT OR REPLACE, so after set_stop_scan_flag the
stored stop flag equals the written value and scan_active is reset to its
schema default false, and after set_scan_active the stored stop flag is reset
to false, in both cases regardless of the previous state. -/
theorem scan_flag_writers_reset_sibling (db : DB) (v : Bool) :
    should_stop_scan (set_stop_scan_flag v db) = v ∧
    is_scan_active (set_stop_scan_flag v db) = false ∧
    should_stop_scan (set_scan_active v db) = false ∧
    is_scan_active (set_scan_active v db) = v := by
  simp [should_stop_scan, is_scan_active, set_stop_scan_flag, set_scan_active]

/-- C3: from a state with no discovered row for (owner, externalId), the first
insert_stub reports an insertion, the second call with the same key reports
none, leaves the state unchanged, and exactly one row for that key exists; the
duplicate call is a total function application, so it cannot raise. -/
theorem insert_stub_idempotent (db : DB) (jid : Nat) (url loc kw : String)
    (h : ∀ r ∈ db.discovered, ¬(r.user_id = ADMIN_USER_ID ∧ r.job_id = jid)) :
    (insert_stub jid url loc kw db).1 = true ∧
    (insert_stub jid url loc kw (insert_stub jid url loc kw db).2).1 = false ∧
    (insert_stub jid url loc kw (insert_stub jid url loc kw db).2).2 =
      (insert_stub jid url loc kw db).2 ∧
    ((insert_stub jid url loc kw (insert_stub jid url loc kw db).2).2).discovered.countP
      (dKey jid) = 1 := by
  have hany := anyKey_eq_false h
  have hcount : db.discovered.countP (dKey jid) = 0 := by
    rw [List.countP_eq_zero]
    intro r hr
    simpa [dKey] using h r hr
  simp [insert_stub, hany, dKey, List.countP_append, hcount]

/-- C5: mark_job_as_applied reports success exactly when an unapplied row with
that primary key exists for the owner, and in that case stamps it with the
current time; when it reports failure, among others on an already-applied row,
the database is left entirely unchanged; every row already carrying an
application timestamp survives unmodified, so application is monotonic. -/
theorem mark_job_as_applied_contract (db : DB) (pk now : Nat) :
    ((mark_job_as_applied pk now db).1 = true ↔
      ∃ a ∈ db.approved, a.user_id = ADMIN_USER_ID ∧ a.rid = pk ∧ a.date_applied = none) ∧
    ((mark_job_as_applied pk now db).1 = false → (mark_job_as_applied pk now db).2 = db) ∧
    (∀ a ∈ db.approved, a.date_applied.isSome → a ∈ (mark_job_as_applied pk now db).2.approved) ∧
    ((mark_job_as_applied pk now db).1 = true →
      ∃ a ∈ (mark_job_as_applied pk now db).2.approved,
        a.user_id = ADMIN_USER_ID ∧ a.rid = pk ∧ a.date_applied = some now) := by
  refine ⟨?_, ?_, ?_, ?_⟩
  · simp [mark_job_as_applied, List.any_eq_true, appliedHit,
      Option.isNone_iff_eq_none, and_assoc]
  · intro hf
    have h2 : db.approved.any (appliedHit pk) = false := by
      simpa [mark_job_as_applied] using hf
    rw [List.any_eq_false] at h2
    have hmap : db.approved.map
        (fun a => if appliedHit pk a then { a with date_applied := some now } else a) =
        db.approved :=
      map_id_of_all _ _ fun a ha => by simp [h2 a ha]
    simp [mark_job_as_applied, hmap]
  · intro a ha hsome
    have hhit : appliedHit pk a = false := by
      rcases Option.isSome_iff_exists.1 hsome with ⟨t, ht2⟩
      simp [appliedHit, ht2]
    have hmem := List.mem_map_of_mem
      (fun a => if appliedHit pk a then { a with date_applied := some now } else a) ha
    simp only [hhit, Bool.false_eq_true, if_false] at hmem
    simpa [mark_job_as_applied] using hmem
  · intro ht
    have hex : ∃ a ∈ db.approved, appliedHit pk a = true := by
      simpa [mark_job_as_applied, List.any_eq_true] using ht
    obtain ⟨a, ha, hhit⟩ := hex
    have hh := hhit
    simp only [appliedHit, Bool.and_eq_true, beq_iff_eq,
      Option.isNone_iff_eq_none] at hh
    refine ⟨{ a with date_applied := some now }, ?_, ?_, ?_, rfl⟩
    · have hmem := List.mem_map_of_mem
        (fun a => if appliedHit pk a then { a with date_applied := some now } else a) ha
      simp only [hhit, eq_self_iff_true, if_true] at hmem
      simpa [mark_job_as_applied] using hmem
    · exact hh.1.1
    · exact hh.1.2

/-- C5 witness: on a database whose only approved row is already applied, the
operation reports failure and leaves the database unchanged. -/
theorem mark_job_as_applied_contract_witness :
    (mark_job_as_applied 1 9 dbApp).2 = dbApp :=
  (mark_job_as_applied_contract dbApp 1 9).2.1 (by decide)

/-- C3 witness at the empty database with external id 7. -/
theorem insert_stub_idempotent_witness :
    (insert_stub 7 "u" "l" "k" db0).1 = true ∧
    (insert_stub 7 "u" "l" "k" (insert_stub 7 "u" "l" "k" db0).2).1 = false ∧
    (insert_stub 7 "u" "l" "k" (insert_stub 7 "u" "l" "k" db0).2).2 =
      (insert_stub 7 "u" "l" "k" db0).2 ∧
    ((insert_stub 7 "u" "l" "k" (insert_stub 7 "u" "l" "k" db0).2).2).discovered.countP
      (dKey 7) = 1 :=
  insert_stub_idempotent db0 7 "u" "l" "k" (by decide)

/-- C6: clear_all_discovered_jobs runs the approved-jobs delete first and the
discovered-jobs delete second, returns the discovered rowcount and not the
approved one, leaves zero discovered and zero approved rows for the owner, and
keeps referential integrity in the intermediate and final states. -/
theorem clear_all_discovered_contract (db : DB) :
    clear_all_discovered_jobs db = del_discovered_for_user (del_approved_for_user db) ∧
    (clear_all_discovered_jobs db).1 =
      db.discovered.countP (fun r => r.user_id == ADMIN_USER_ID) ∧
    ((clear_all_discovered_jobs db).2).discovered.countP
      (fun r => r.user_id == ADMIN_USER_ID) = 0 ∧
    ((clear_all_discovered_jobs db).2).approved.countP
      (fun a => a.user_id == ADMIN_USER_ID) = 0 ∧
    ((∀ a ∈ db.approved, a.user_id = ADMIN_USER_ID) → RefOk db →
      RefOk (del_approved_for_user db) ∧ RefOk (clear_all_discovered_jobs db).2) := by
  refine ⟨rfl, rfl, ?_, ?_, ?_⟩
  · rw [List.countP_eq_zero]
    intro r hr
    simp only [clear_all_discovered_jobs, del_discovered_for_user,
      del_approved_for_user] at hr
    have h2 := (List.mem_filter.1 hr).2
    simpa using h2
  · rw [List.countP_eq_zero]
    intro a ha
    simp only [clear_all_discovered_jobs, del_discovered_for_user,
      del_approved_for_user] at ha
    have h2 := (List.mem_filter.1 ha).2
    simpa using h2
  · intro hall _
    constructor
    · intro a ha
      simp only [del_approved_for_user] at ha
      have h2 := List.mem_filter.1 ha
      exact absurd (hall a h2.1) (by simpa using h2.2)
    · intro a ha
      simp only [clear_all_discovered_jobs, del_discovered_for_user,
        del_approved_for_user] at ha
      have h2 := List.mem_filter.1 ha
      exact absurd (hall a h2.1) (by simpa using h2.2)

/-- C6 witness: integrity conditions discharged on a concrete database. -/
theorem clear_all_discovered_contract_witness :
    RefOk (del_approved_for_user dbDup) ∧ RefOk (clear_all_discovered_jobs dbDup).2 :=
  (clear_all_discovered_contract dbDup).2.2.2.2 (by decide)
    (by intro a ha; simp [dbDup] at ha)

/-- C1: when a task is live, start fails with the already-running message and
changes nothing, so no second task is spawned; when no task is live, stop
fails with the not-running message and changes nothing; and every transition
of the controller, each of which executes atomically under the single
_scan_lock, preserves the bound of at most one live task. -/
theorem scan_controller_single_flight (s : Sys) (f g : Option String) (body : DB → DB) :
    (0 < s.liveTasks → start_scan f s = ((false, "Scan is already running"), s)) ∧
    (s.liveTasks = 0 → stop_scan g s = ((false, "No scan is currently running"), s)) ∧
    (s.liveTasks ≤ 1 →
      (start_scan f s).2.liveTasks ≤ 1 ∧ (stop_scan g s).2.liveTasks ≤ 1 ∧
      (scan_worker_exit body s).liveTasks ≤ 1) := by
  refine ⟨?_, ?_, ?_⟩
  · intro h
    simp [start_scan, h]
  · intro h
    simp [stop_scan, h]
  · intro h
    refine ⟨?_, ?_, ?_⟩
    · by_cases hl : 0 < s.liveTasks
      · simpa [start_scan, hl] using h
      · have h0 : s.liveTasks = 0 := by omega
        cases f with
        | none => simp [start_scan, hl, h0]
        | some e => simp [start_scan, hl, h0]
    · by_cases hl : 0 < s.liveTasks
      · cases g with
        | none => simpa [stop_scan, hl] using h
        | some e => simpa [stop_scan, hl] using h
      · simpa [stop_scan, hl] using h
    · simp only [scan_worker_exit]
      omega

/-- C1 witness: the two failure branches and the bound at concrete states. -/
theorem scan_controller_single_flight_witness :
    start_scan none sysLive = ((false, "Scan is already running"), sysLive) ∧
    stop_scan none sysIdle = ((false, "No scan is currently running"), sysIdle) ∧
    (start_scan none sysIdle).2.liveTasks ≤ 1 :=
  ⟨(scan_controller_single_flight sysLive none none id).1 (by decide),
   (scan_controller_single_flight sysIdle none none id).2.1 (by decide),
   ((scan_controller_single_flight sysIdle none none id).2.2 (by decide)).1⟩

/-- C2: a successful stop on a live task reports success, sets the in-memory
stop signal and the persisted stop flag to requested; when the worker then
exits, whatever its body did to the database and whether it returned or
raised, both flags are reset to not-requested and the liveness status reports
not-running with no stop requested. -/
theorem stop_then_worker_exit_resets (s : Sys) (body : DB → DB) (h : s.liveTasks = 1) :
    (stop_scan none s).1 = (true, "Stop signal sent") ∧
    (stop_scan none s).2.stopSignal = true ∧
    should_stop_scan (stop_scan none s).2.db = true ∧
    (scan_worker_exit body (stop_scan none s).2).stopSignal = false ∧
    should_stop_scan (scan_worker_exit body (stop_scan none s).2).db = false ∧
    get_scan_status (scan_worker_exit body (stop_scan none s).2) = (false, false) := by
  have hl : 0 < s.liveTasks := by omega
  simp [stop_scan, hl, scan_worker_exit, get_scan_status, should_stop_scan,
    set_stop_scan_flag, h]

/-- C2 witness at a concrete live state with the identity body. -/
theorem stop_then_worker_exit_resets_witness :
    (stop_scan none sysLive).1 = (true, "Stop signal sent") ∧
    (stop_scan none sysLive).2.stopSignal = true ∧
    should_stop_scan (stop_scan none sysLive).2.db = true ∧
    (scan_worker_exit id (stop_scan none sysLive).2).stopSignal = false ∧
    should_stop_scan (scan_worker_exit id (stop_scan none sysLive).2).db = false ∧
    get_scan_status (scan_worker_exit id (stop_scan none sysLive).2) = (false, false) :=
  stop_then_worker_exit_resets sysLive id (by decide)

/-- C4: approve_job reports failure exactly when no discovered row exists for
the owner and external id; when one exists, a first and a second call both
report success and the final state holds exactly one approved row for that
discovered job. The hypothesis is the uniqueness invariant the schema enforces
on approved_jobs. -/
theorem approve_job_contract (db : DB) (jid : Nat) (reason : String)
    (hwf : ∀ did : Nat, db.approved.countP (aKey did) ≤ 1) :
    ((approve_job jid reason db).1 = false ↔
      ∀ r ∈ db.discovered, ¬(r.user_id = ADMIN_USER_ID ∧ r.job_id = jid)) ∧
    (∀ d, db.discovered.find? (dKey jid) = some d →
      (approve_job jid reason db).1 = true ∧
      (approve_job jid reason (approve_job jid reason db).2).1 = true ∧
      ((approve_job jid reason (approve_job jid reason db).2).2).approved.countP
        (aKey d.rid) = 1) := by
  constructor
  · cases hf : db.discovered.find? (dKey jid) with
    | none =>
      have hall : ∀ r ∈ db.discovered, ¬(r.user_id = ADMIN_USER_ID ∧ r.job_id = jid) := by
        rw [List.find?_eq_none] at hf
        intro r hr
        simpa [dKey] using hf r hr
      simp only [approve_job, hf]
      exact ⟨fun _ => hall, fun _ => trivial⟩
    | some d =>
      have hd := List.find?_some hf
      have hmem := List.mem_of_find?_eq_some hf
      simp only [approve_job, hf]
      constructor
      · intro hfalse
        simp at hfalse
      · intro hall
        exact absurd hd (by simpa [dKey] using hall d hmem)
  · intro d hf
    have h1 : approve_job jid reason db = (true, approveInsert d.rid reason db) := by
      simp [approve_job, hf]
    have hdisc : (approveInsert d.rid reason db).discovered = db.discovered := by
      unfold approveInsert
      split <;> rfl
    have h2 : approve_job jid reason (approveInsert d.rid reason db) =
        (true, approveInsert d.rid reason (approveInsert d.rid reason db)) := by
      simp [approve_job, hdisc, hf]
    have key : (approveInsert d.rid reason (approveInsert d.rid reason db)).approved.countP
        (aKey d.rid) = 1 := by
      by_cases hany : db.approved.any (aKey d.rid) = true
      · have hins : approveInsert d.rid reason db = db :=
          approveInsert_of_any hany
        rw [hins, hins]
        have hpos : 0 < db.approved.countP (aKey d.rid) :=
          List.countP_pos_iff.2 (List.any_eq_true.1 hany)
        have hle := hwf d.rid
        omega
      · have hany2 : db.approved.any (aKey d.rid) = false := by
          simpa using hany
        have hzero : db.approved.countP (aKey d.rid) = 0 := by
          rw [List.countP_eq_zero]
          rw [List.any_eq_false] at hany2
          exact hany2
        have hA : (approveInsert d.rid reason db).approved =
            db.approved ++ [⟨db.nextAid, ADMIN_USER_ID, d.rid, reason, none, false⟩] := by
          simp [approveInsert, hany2]
        have hanew : aKey d.rid (⟨db.nextAid, ADMIN_USER_ID, d.rid, reason, none, false⟩ : ARow) = true := by
          simp [aKey]
        have hany3 : (approveInsert d.rid reason db).approved.any (aKey d.rid) = true := by
          rw [hA, List.any_eq_true]
          exact ⟨_, by simp, hanew⟩
        have hins2 : approveInsert d.rid reason (approveInsert d.rid reason db) =
            approveInsert d.rid reason db :=
          approveInsert_of_any hany3
        rw [hins2, hA, List.countP_append, hzero]
        simp [hanew]
    refine ⟨by simp [h1], ?_, ?_⟩
    · rw [h1]
      simp [h2]
    · rw [h1]
      simp only [h2]
      exact key

/-- C4 witness: double approval of the discovered job with external id 7. -/
theorem approve_job_contract_witness :
    (approve_job 7 "ok" dbDup).1 = true ∧
    (approve_job 7 "ok" (approve_job 7 "ok" dbDup).2).1 = true ∧
    ((approve_job 7 "ok" (approve_job 7 "ok" dbDup).2).2).approved.countP
      (aKey row7.rid) = 1 :=
  (approve_job_contract dbDup 7 "ok" (fun did => by simp [dbDup])).2 row7 (by decide)

/-- C7 counterexample: a persistence failure inside insert_stub is caught and
reported as the ordinary value false on the unchanged database, bit for bit
the same result an ordinary duplicate insertion produces, so the caller does
not receive a signaled failure. -/
theorem store_failure_reported_as_ordinary_result :
    insert_stub_x (some "disk error") 7 "u2" "l2" "k2" dbDup = (false, dbDup) ∧
    insert_stub_x none 7 "u2" "l2" "k2" dbDup = (false, dbDup) ∧
    insert_stub_x (some "disk error") 7 "u2" "l2" "k2" dbDup =
      insert_stub_x none 7 "u2" "l2" "k2" dbDup := by
  refine ⟨rfl, by decide, by decide⟩

/-- C7 amended: every failing store operation rolls its atomic unit back
entirely, so no partial write is observable (even when the first DELETE of the
clear operation had already run); but the operations wrapped in a catch block
(insert_stub, approve_job, clear_all_discovered_jobs) report the failure as
their ordinary false or zero result instead of signaling it, and only
catch-free operations such as update_details propagate the failure. -/
theorem store_ops_rollback_and_swallow (f1 f2 : Option String) (jid : Nat)
    (url loc kw reason : String) (t d : Option String) (db : DB) :
    (f1.isSome = true → insert_stub_x f1 jid url loc kw db = (false, db)) ∧
    (f1.isSome = true ∨ f2.isSome = true →
      approve_job_x f1 f2 jid reason db = (false, db)) ∧
    (f1.isSome = true ∨ f2.isSome = true →
      clear_all_discovered_jobs_x f1 f2 db = (0, db)) ∧
    (∀ e, f1 = some e → update_details_x f1 jid t d db = (Except.error e, db)) := by
  refine ⟨?_, ?_, ?_, ?_⟩
  · intro h
    obtain ⟨e, rfl⟩ := Option.isSome_iff_exists.1 h
    rfl
  · intro h
    cases f1 with
    | some e => rfl
    | none =>
      rcases h with h | h
      · simp at h
      · obtain ⟨e, rfl⟩ := Option.isSome_iff_exists.1 h
        cases hf : db.discovered.find? (dKey jid) with
        | none => simp [approve_job_x, get_conn_run, hf]
        | some dd => simp [approve_job_x, get_conn_run, hf]
  · intro h
    cases f1 with
    | some e => rfl
    | none =>
      rcases h with h | h
      · simp at h
      · obtain ⟨e, rfl⟩ := Option.isSome_iff_exists.1 h
        rfl
  · intro e he
    subst he
    rfl

/-- C7 amended witness: a failing insert and a clear whose second DELETE
fails, both on a concrete database. -/
theorem store_ops_rollback_and_swallow_witness :
    insert_stub_x (some "boom") 7 "u" "l" "k" dbDup = (false, dbDup) ∧
    clear_all_discovered_jobs_x none (some "boom") dbDup = (0, dbDup) :=
  ⟨(store_ops_rollback_and_swallow (some "boom") none 7 "u" "l" "k" "r" none none dbDup).1 rfl,
   (store_ops_rollback_and_swallow none (some "boom") 7 "u" "l" "k" "r" none none dbDup).2.2.1
     (Or.inr rfl)⟩

/-- C8: analyze_job selects the provider from the lower-cased ai_provider
value; for the openai provider an absent, empty or placeholder key yields the
configuration error before any provider call, likewise for gemini with its
key; any other provider value yields a configuration error whose message
contains that value; and a configuration-error outcome is never a network
outcome, so no provider interaction happens in any of these cases. -/
theorem analyze_job_config_errors (cfg : UserConfig) (desc : String) (uid : Nat)
    (resume : Option String) :
    (strLower (cfg.ai_provider.getD "openai") = "openai" →
      keyUnset cfg.openai_api_key "YOUR_OPENAI_API_KEY_HERE" = true →
      analyze_job desc uid resume cfg =
        EvalOutcome.configError
          ("OpenAI API Key not configured for user " ++ toString uid ++
           " or is a placeholder.")) ∧
    (strLower (cfg.ai_provider.getD "openai") = "gemini" →
      keyUnset cfg.google_api_key "YOUR_GOOGLE_API_KEY_HERE" = true →
      analyze_job desc uid resume cfg =
        EvalOutcome.configError
          "Google API Key not configured for user or is a placeholder.") ∧
    (strLower (cfg.ai_provider.getD "openai") ≠ "openai" →
      strLower (cfg.ai_provider.getD "openai") ≠ "gemini" →
      ∃ a b, analyze_job desc uid resume cfg =
        EvalOutcome.configError (a ++ strLower (cfg.ai_provider.getD "openai") ++ b)) ∧
    (∀ m p k pr, analyze_job desc uid resume cfg = EvalOutcome.configError m →
      analyze_job desc uid resume cfg ≠ EvalOutcome.network p k pr) := by
  refine ⟨?_, ?_, ?_, ?_⟩
  · intro hp hk
    simp [analyze_job, hp, hk]
  · intro hp hk
    simp [analyze_job, hp, call_gemini, hk]
  · intro hp hg
    refine ⟨"Invalid AI provider configured for user " ++ toString uid ++ ": \x27",
      "\x27. Must be \x27openai\x27 or \x27gemini\x27.", ?_⟩
    simp [analyze_job, hp, hg]
  · intro m p k pr hc hn
    rw [hc] at hn
    exact EvalOutcome.noConfusion hn

/-- C8 witness: a mixed-case provider name with a missing OpenAI key. -/
theorem analyze_job_config_errors_witness :
    analyze_job "d" 1 none cfgBad =
      EvalOutcome.configError
        ("OpenAI API Key not configured for user " ++ toString 1 ++
         " or is a placeholder.") :=
  (analyze_job_config_errors cfgBad "d" 1 none).1 (by decide) (by decide)

theorem takeDigitsG_append {dig : Char → Bool} (ds post : List Char)
    (hds : ∀ c ∈ ds, dig c = true)
    (hp : ∀ c cs, post = c :: cs → dig c = false) :
    takeDigitsG dig (ds ++ post) = (ds, post) := by
  induction ds with
  | nil =>
    cases post with
    | nil => rfl
    | cons c cs => simp [takeDigitsG, hp c cs rfl]
  | cons c ds ih =>
    have hc : dig c = true := hds c (by simp)
    have ih2 := ih fun x hx => hds x (by simp [hx])
    simp [takeDigitsG, hc, ih2]

theorem takeDigitsG_decomp {dig : Char → Bool} (s : List Char) :
    s = (takeDigitsG dig s).1 ++ (takeDigitsG dig s).2 ∧
    (∀ c ∈ (takeDigitsG dig s).1, dig c = true) ∧
    (∀ c cs, (takeDigitsG dig s).2 = c :: cs → dig c = false) := by
  induction s with
  | nil => simp [takeDigitsG]
  | cons c cs ih =>
    by_cases hc : dig c = true
    · refine ⟨?_, ?_, ?_⟩
      · simp only [takeDigitsG, hc]
        simpa using ih.1
      · intro x hx
        simp only [takeDigitsG, hc] at hx
        simp at hx
        rcases hx with rfl | hx
        · exact hc
        · exact ih.2.1 x hx
      · intro x xs hxx
        simp only [takeDigitsG, hc] at hxx
        exact ih.2.2 x xs hxx
    · have hc2 : dig c = false := by simpa using hc
      refine ⟨?_, ?_, ?_⟩
      · simp [takeDigitsG, hc2]
      · intro x hx
        simp [takeDigitsG, hc2] at hx
      · intro x xs hxx
        simp only [takeDigitsG, hc2] at hxx
        simp at hxx
        rw [← hxx.1]
        exact hc2

theorem digitsMatchG_sound {dig : Char → Bool} {dval : Char → Nat}
    {tOk : List Char → Bool} {tP : List Char → Prop}
    (htOk : ∀ post, tOk post = true ↔ tP post) (s : List Char) (n : Nat)
    (h : digitsMatchG dig dval tOk s = some n) :
    ∃ ds post, s = ds ++ post ∧ (ds ≠ [] ∧ ∀ c ∈ ds, dig c = true) ∧ tP post ∧
      natOfDigitsG dval ds = n := by
  unfold digitsMatchG at h
  by_cases hc : (!(takeDigitsG dig s).1.isEmpty && tOk (takeDigitsG dig s).2) = true
  · rw [if_pos hc] at h
    have hc2 : (!(takeDigitsG dig s).1.isEmpty) = true ∧
        tOk (takeDigitsG dig s).2 = true := by
      simpa using hc
    obtain ⟨hni, hterm⟩ := hc2
    refine ⟨(takeDigitsG dig s).1, (takeDigitsG dig s).2, (takeDigitsG_decomp s).1,
      ⟨?_, (takeDigitsG_decomp s).2.1⟩, (htOk _).1 hterm, by injection h⟩
    intro hnil
    rw [hnil] at hni
    simp at hni
  · rw [if_neg (by simpa using hc)] at h
    cases h

theorem digitsMatchG_complete {dig : Char → Bool} {dval : Char → Nat}
    {tOk : List Char → Bool} {tP : List Char → Prop}
    (htOk : ∀ post, tOk post = true ↔ tP post)
    (hnd : ∀ c cs, tP (c :: cs) → dig c = false)
    (ds post : List Char) (h1 : ds ≠ [] ∧ ∀ c ∈ ds, dig c = true) (h2 : tP post) :
    digitsMatchG dig dval tOk (ds ++ post) = some (natOfDigitsG dval ds) := by
  have hp : ∀ c cs, post = c :: cs → dig c = false := by
    intro c cs hcc
    rw [hcc] at h2
    exact hnd c cs h2
  unfold digitsMatchG
  rw [takeDigitsG_append ds post h1.2 hp]
  have hne : ds.isEmpty = false := by
    cases ds with
    | nil => exact absurd rfl h1.1
    | cons a l => rfl
  rw [if_pos]
  simp [hne, (htOk post).2 h2]

theorem matchSluggedG_sound {dig : Char → Bool} {dval : Char → Nat}
    {tOk : List Char → Bool} : ∀ (s : List Char) (n : Nat),
    matchSluggedG dig dval tOk s = some n →
    ∃ slug t, s = slug ++ '-' :: t ∧ (∀ c ∈ slug, ¬(c = '/' ∨ c = '?')) ∧
      digitsMatchG dig dval tOk t = some n := by
  intro s
  induction s with
  | nil =>
    intro n h
    simp [matchSluggedG] at h
  | cons c cs ih =>
    intro n h
    unfold matchSluggedG at h
    by_cases hdel : (c = '/' ∨ c = '?')
    · rw [if_pos (by simpa using hdel)] at h
      cases h
    · rw [if_neg (by simpa using hdel)] at h
      cases hms : matchSluggedG dig dval tOk cs with
      | some m =>
        rw [hms] at h
        obtain ⟨slug, t, hcs, hslug, hd⟩ := ih m hms
        refine ⟨c :: slug, t, by simp [hcs], ?_, by rw [hd, ← h]⟩
        intro x hx
        rcases List.mem_cons.1 hx with rfl | hx2
        · exact hdel
        · exact hslug x hx2
      | none =>
        rw [hms] at h
        by_cases hc : c = '-'
        · rw [if_pos hc] at h
          exact ⟨[], cs, by simp [hc], by simp, h⟩
        · rw [if_neg hc] at h
          cases h

theorem matchSluggedG_complete {dig : Char → Bool} {dval : Char → Nat}
    {tOk : List Char → Bool} : ∀ (slug t : List Char) (n : Nat),
    (∀ c ∈ slug, ¬(c = '/' ∨ c = '?')) → digitsMatchG dig dval tOk t = some n →
    (matchSluggedG dig dval tOk (slug ++ '-' :: t)).isSome = true := by
  intro slug
  induction slug with
  | nil =>
    intro t n _ hd
    rw [List.nil_append]
    unfold matchSluggedG
    rw [if_neg (by simp)]
    cases hms : matchSluggedG dig dval tOk t with
    | some m => simp
    | none => simp [hd]
  | cons c slug ih =>
    intro t n hslug hd
    have hc := hslug c (by simp)
    rw [List.cons_append]
    unfold matchSluggedG
    rw [if_neg (by simpa using hc)]
    cases hms : matchSluggedG dig dval tOk (slug ++ '-' :: t) with
    | some m => simp
    | none =>
      exfalso
      have := ih t n (fun x hx => hslug x (by simp [hx])) hd
      rw [hms] at this
      cases this

theorem matchAfterLitG_sound {dig : Char → Bool} {dval : Char → Nat}
    {tOk : List Char → Bool} {tP : List Char → Prop}
    (htOk : ∀ post, tOk post = true ↔ tP post) (s : List Char) (n : Nat)
    (h : matchAfterLitG dig dval tOk s = some n) :
    AfterLitMatchG dig dval tP s n := by
  unfold matchAfterLitG at h
  cases hms : matchSluggedG dig dval tOk s with
  | some m =>
    rw [hms] at h
    obtain ⟨slug, t, hs, hslug, hd⟩ := matchSluggedG_sound s m hms
    obtain ⟨ds, post, ht, hds, hterm, hval⟩ := digitsMatchG_sound htOk t m hd
    refine ⟨slug ++ ['-'], ds, post, ?_, Or.inr ⟨slug, rfl, hslug⟩, hds, hterm, ?_⟩
    · rw [hs, ht]
      simp
    · simp at h
      rw [hval]
      exact h
  | none =>
    rw [hms] at h
    obtain ⟨ds, post, hs, hds, hterm, hval⟩ := digitsMatchG_sound htOk s n h
    exact ⟨[], ds, post, by simpa using hs, Or.inl rfl, hds, hterm, hval⟩

theorem matchAfterLitG_complete {dig : Char → Bool} {dval : Char → Nat}
    {tOk : List Char → Bool} {tP : List Char → Prop}
    (htOk : ∀ post, tOk post = true ↔ tP post)
    (hnd : ∀ c cs, tP (c :: cs) → dig c = false) (s : List Char) (n : Nat)
    (h : AfterLitMatchG dig dval tP s n) :
    (matchAfterLitG dig dval tOk s).isSome = true := by
  obtain ⟨mid, ds, post, hs, hmid, hds, hterm, _⟩ := h
  unfold matchAfterLitG
  cases hms : matchSluggedG dig dval tOk s with
  | some m => simp
  | none =>
    rcases hmid with rfl | ⟨slug, rfl, hslug⟩
    · rw [hs]
      simp [digitsMatchG_complete htOk hnd ds post hds hterm]
    · exfalso
      have hcomp := matchSluggedG_complete slug (ds ++ post) (natOfDigitsG dval ds)
        hslug (digitsMatchG_complete htOk hnd ds post hds hterm)
      have hshape : slug ++ '-' :: (ds ++ post) = s := by
        rw [hs]
        simp
      rw [hshape, hms] at hcomp
      cases hcomp

theorem startsWithL_append (p r : List Char) : startsWithL p (p ++ r) = true := by
  induction p with
  | nil => rfl
  | cons a p ih => simp [startsWithL, ih]

theorem startsWithL_exists : ∀ (p s : List Char), startsWithL p s = true →
    ∃ r, s = p ++ r := by
  intro p
  induction p with
  | nil =>
    intro s _
    exact ⟨s, rfl⟩
  | cons a p ih =>
    intro s h
    cases s with
    | nil => cases h
    | cons c cs =>
      have h2 : (a == c) = true ∧ startsWithL p cs = true := by
        simpa [startsWithL] using h
      obtain ⟨r, hr⟩ := ih cs h2.2
      refine ⟨r, ?_⟩
      rw [hr, List.cons_append]
      have : a = c := by simpa using h2.1
      rw [this]

theorem searchAuxG_cons {dig : Char → Bool} {dval : Char → Nat}
    {tOk : List Char → Bool} (c : Char) (cs : List Char) :
    searchAuxG dig dval tOk (c :: cs) =
      if startsWithL litP (c :: cs) then
        match matchAfterLitG dig dval tOk ((c :: cs).drop litP.length) with
        | some n => some n
        | none => searchAuxG dig dval tOk cs
      else searchAuxG dig dval tOk cs := rfl

theorem matchedAsG_cons {dig : Char → Bool} {dval : Char → Nat}
    {tP : List Char → Prop} (c : Char) (cs : List Char) (n : Nat)
    (h : MatchedAsG dig dval tP cs n) : MatchedAsG dig dval tP (c :: cs) n := by
  obtain ⟨pre, mid, ds, post, hs, hmid, hds, ht, hv⟩ := h
  exact ⟨c :: pre, mid, ds, post, by simp [hs], hmid, hds, ht, hv⟩

theorem searchAuxG_sound {dig : Char → Bool} {dval : Char → Nat}
    {tOk : List Char → Bool} {tP : List Char → Prop}
    (htOk : ∀ post, tOk post = true ↔ tP post) : ∀ (s : List Char) (n : Nat),
    searchAuxG dig dval tOk s = some n → MatchedAsG dig dval tP s n := by
  intro s
  induction s with
  | nil =>
    intro n h
    cases h
  | cons c cs ih =>
    intro n h
    rw [searchAuxG_cons] at h
    by_cases hsw : startsWithL litP (c :: cs) = true
    · rw [if_pos hsw] at h
      obtain ⟨r, hr⟩ := startsWithL_exists litP (c :: cs) hsw
      have hdrop : (c :: cs).drop litP.length = r := by
        rw [hr]
        exact List.drop_left litP r
      rw [hdrop] at h
      cases hml : matchAfterLitG dig dval tOk r with
      | some m =>
        rw [hml] at h
        have hmn : m = n := by simpa using h
        obtain ⟨mid, ds, post, hsr, hmid, hds, hterm, hval⟩ :=
          matchAfterLitG_sound htOk r m hml
        refine ⟨[], mid, ds, post, ?_, hmid, hds, hterm, by rw [hval, hmn]⟩
        rw [List.nil_append, hr, hsr]
        simp
      | none =>
        rw [hml] at h
        exact matchedAsG_cons c cs n (ih n h)
    · rw [if_neg hsw] at h
      exact matchedAsG_cons c cs n (ih n h)

theorem searchAuxG_complete_aux {dig : Char → Bool} {dval : Char → Nat}
    {tOk : List Char → Bool} : ∀ (pre rest : List Char),
    (matchAfterLitG dig dval tOk rest).isSome = true →
    (searchAuxG dig dval tOk (pre ++ (litP ++ rest))).isSome = true := by
  intro pre
  induction pre with
  | nil =>
    intro rest h
    rw [List.nil_append]
    have hcons : litP ++ rest =
        '/' :: (['j', 'o', 'b', 's', '/', 'v', 'i', 'e', 'w', '/'] ++ rest) := rfl
    rw [hcons, searchAuxG_cons, ← hcons, startsWithL_append, List.drop_left litP rest]
    obtain ⟨n, hn⟩ := Option.isSome_iff_exists.1 h
    rw [if_pos rfl, hn]
    rfl
  | cons c pre ih =>
    intro rest h
    rw [List.cons_append, searchAuxG_cons]
    by_cases hsw : startsWithL litP (c :: (pre ++ (litP ++ rest))) = true
    · rw [if_pos hsw]
      cases hml : matchAfterLitG dig dval tOk
          ((c :: (pre ++ (litP ++ rest))).drop litP.length) with
      | some m => rfl
      | none => exact ih rest h
    · rw [if_neg hsw]
      exact ih rest h

theorem searchAuxG_complete {dig : Char → Bool} {dval : Char → Nat}
    {tOk : List Char → Bool} {tP : List Char → Prop}
    (htOk : ∀ post, tOk post = true ↔ tP post)
    (hnd : ∀ c cs, tP (c :: cs) → dig c = false) (s : List Char) (n : Nat)
    (h : MatchedAsG dig dval tP s n) :
    (searchAuxG dig dval tOk s).isSome = true := by
  obtain ⟨pre, mid, ds, post, hs, hmid, hds, hterm, _⟩ := h
  have hml : (matchAfterLitG dig dval tOk (mid ++ ds ++ post)).isSome = true :=
    matchAfterLitG_complete htOk hnd _ (natOfDigitsG dval ds)
      ⟨mid, ds, post, rfl, hmid, hds, hterm, rfl⟩
  have hshape : s = pre ++ (litP ++ (mid ++ ds ++ post)) := by
    rw [hs]
    simp
  rw [hshape]
  exact searchAuxG_complete_aux pre _ hml

theorem termOk_iff_py (post : List Char) : termOk post = true ↔ TermPy post := by
  rcases post with _ | ⟨c, _ | ⟨c2, cs⟩⟩
  · simp [termOk, TermPy]
  · simp only [termOk, TermPy, Bool.or_eq_true, decide_eq_true_eq]
    constructor
    · rintro ((h | h) | h)
      · exact Or.inr (Or.inr ⟨c, [], rfl, Or.inl h⟩)
      · exact Or.inr (Or.inr ⟨c, [], rfl, Or.inr h⟩)
      · rw [h]
        exact Or.inr (Or.inl rfl)
    · rintro (h | h | ⟨c2, cs2, heq, hv⟩)
      · cases h
      · injection h with h1 _
        exact Or.inr h1
      · injection heq with h1 h2
        rw [h1]
        rcases hv with rfl | rfl
        · exact Or.inl (Or.inl rfl)
        · exact Or.inl (Or.inr rfl)
  · simp only [termOk, TermPy, Bool.or_eq_true, decide_eq_true_eq]
    constructor
    · rintro (h | h)
      · exact Or.inr (Or.inr ⟨c, c2 :: cs, rfl, Or.inl h⟩)
      · exact Or.inr (Or.inr ⟨c, c2 :: cs, rfl, Or.inr h⟩)
    · rintro (h | h | ⟨c3, cs3, heq, hv⟩)
      · cases h
      · simp at h
      · injection heq with h1 h2
        rw [h1]
        exact hv

theorem termOkSpec_iff (post : List Char) : termOkSpec post = true ↔ TermP post := by
  cases post with
  | nil => simp [termOkSpec, TermP]
  | cons c cs =>
    simp only [termOkSpec, TermP, Bool.or_eq_true, decide_eq_true_eq]
    constructor
    · intro h
      exact Or.inr ⟨c, cs, rfl, h⟩
    · rintro (h | ⟨c2, cs2, heq, hv⟩)
      · cases h
      · injection heq with h1 _
        rw [h1]
        exact hv

theorem termPy_head_not_digit : ∀ (c : Char) (cs : List Char),
    TermPy (c :: cs) → isPyDigit c = false := by
  intro c cs h
  rcases h with h | h | ⟨c2, cs2, heq, hv⟩
  · cases h
  · injection h with h1 _
    rw [h1]
    decide
  · injection heq with h1 _
    rw [h1]
    rcases hv with rfl | rfl <;> decide

theorem termP_head_not_digit : ∀ (c : Char) (cs : List Char),
    TermP (c :: cs) → c.isDigit = false := by
  intro c cs h
  rcases h with h | ⟨c2, cs2, heq, hv⟩
  · cases h
  · injection heq with h1 _
    rw [h1]
    rcases hv with rfl | rfl <;> decide

theorem searchSpec_of_matched (s : List Char) (n : Nat) (h : MatchedAs s n) :
    (searchSpec s).isSome = true :=
  searchAuxG_complete termOkSpec_iff termP_head_not_digit s n h

/-- C9 counterexample: the program accepts two URLs that the stated pattern
rejects: the dollar anchor of the regex matches just before a trailing
newline, and the digit class of the str pattern matches Arabic-Indic digits,
while the stated pattern requires the digits to be followed by a slash, a
question mark or the end of the string; on both inputs extraction returns a
job id where the claim requires the not-found result. -/
theorem extract_job_id_strict_pattern_counterexample :
    extract_job_id_from_url
      "https://x.example/jobs/view/software-engineer-3847261012\n" =
      some 3847261012 ∧
    ¬ IsJobIdMatch
      ("https://x.example/jobs/view/software-engineer-3847261012\n").data ∧
    extract_job_id_from_url "x/jobs/view/١٢٣/" = some 123 ∧
    ¬ IsJobIdMatch ("x/jobs/view/١٢٣/").data := by
  refine ⟨by rfl, ?_, by rfl, ?_⟩
  · rintro ⟨n, hm⟩
    have h2 := searchSpec_of_matched _ n hm
    rw [show searchSpec
        ("https://x.example/jobs/view/software-engineer-3847261012\n").data =
        none from rfl] at h2
    simp at h2
  · rintro ⟨n, hm⟩
    have h2 := searchSpec_of_matched _ n hm
    rw [show searchSpec ("x/jobs/view/١٢٣/").data = none from rfl] at h2
    simp at h2

/-- C9 amended: job-id extraction is a pure total function, so no input can
raise; the sample URL yields 3847261012 and a URL with no digits after the
literal yields none; extraction succeeds exactly when the URL matches the
fixed pattern under the engine semantics, in which the digits are Unicode
decimal digits and the trailing context is a slash, a question mark, the end
of the string, or the position just before a single trailing newline; and
every returned value is the int() value of the digit group of such a match. -/
theorem extract_job_id_contract :
    extract_job_id_from_url "https://x.example/jobs/view/software-engineer-3847261012/" =
      some 3847261012 ∧
    extract_job_id_from_url "https://x.example/jobs/view/software-engineer/" = none ∧
    (∀ url : String, (extract_job_id_from_url url).isSome = true ↔ IsJobIdMatchPy url.data) ∧
    (∀ (url : String) (n : Nat), extract_job_id_from_url url = some n →
      MatchedPy url.data n) := by
  refine ⟨by rfl, by rfl, ?_, ?_⟩
  · intro url
    constructor
    · intro h
      obtain ⟨n, hn⟩ := Option.isSome_iff_exists.1 h
      exact ⟨n, searchAuxG_sound termOk_iff_py url.data n hn⟩
    · rintro ⟨n, hm⟩
      exact searchAuxG_complete termOk_iff_py termPy_head_not_digit url.data n hm
  · intro url n h
    exact searchAuxG_sound termOk_iff_py url.data n h

/-- C9 witness: the sample URL instantiates the value-soundness direction. -/
theorem extract_job_id_contract_witness :
    MatchedPy ("https://x.example/jobs/view/software-engineer-3847261012/").data
      3847261012 :=
  extract_job_id_contract.2.2.2
    "https://x.example/jobs/view/software-engineer-3847261012/" 3847261012 (by rfl)

end JobFinder
